import Mathlib

/-
Verification of the GPS ingestion, caching and route-analytics subsystem.

The definitions below are shallow embeddings of the Python sources:
  - backend/src/services/gps_service.py   (route analysis, tracking history)
  - backend/database_optimizer.py         (batch buffer, durable upsert store, queries)
  - backend/redis_optimizer.py            (GPS cache, binary point codec, write buffer)

Numeric modelling: Python floats and Decimals are modelled as rationals (ℚ);
the transcendental haversine distance is modelled over ℝ.  IEEE-754 single
precision values (numpy float32) are modelled by an explicit value-level
rounding function together with a bit-level encoding into bytes.
-/

namespace GpsVerify

/-- Round-half-to-even on a linear ordered field with floor, the rounding used
by Python's builtin round and by IEEE-754 round-to-nearest-even. -/
def rne {α : Type} [LinearOrderedField α] [FloorRing α] (q : α) : ℤ :=
  let n := ⌊q⌋
  let r := q - n
  if r < 1/2 then n
  else if 1/2 < r then n + 1
  else if 2 ∣ n then n else n + 1

/-- Model of Python round(x, 2): banker's rounding to two decimal places. -/
def rnd2 {α : Type} [LinearOrderedField α] [FloorRing α] (q : α) : α :=
  ((rne (q * 100) : ℤ) : α) / 100

/-- Model of Python int(x) applied to a float: truncation toward zero. -/
def pyTrunc {α : Type} [LinearOrderedField α] [FloorRing α] (q : α) : ℤ :=
  if 0 ≤ q then ⌊q⌋ else ⌈q⌉

/-! ## Route analyzer (gps_service.py)

GPSLocation models a row of the gps_locations table as used by
GPSService.get_tracking_history and GPSService.analyze_route: `gps_time` is
the GPS timestamp in epoch seconds, `speed` is the nullable speed column
(Python processes it through `if curr_point.speed:`, so None and 0 behave
alike there), `is_valid` is the string flag column. -/
structure GPSLocation where
  shipment_id : Option String
  vehicle_id : Option String
  latitude : ℚ
  longitude : ℚ
  speed : Option ℚ
  gps_time : ℚ
  is_valid : String
deriving DecidableEq, Repr

/-- Embedding of GPSService._calculate_distance: the haversine great-circle
distance in kilometres with Earth radius 6371 km.  math.radians converts
degrees to radians. -/
noncomputable def calculate_distance (lat1 lon1 lat2 lon2 : ℚ) : ℝ :=
  let lat1r : ℝ := (lat1 : ℝ) * Real.pi / 180
  let lon1r : ℝ := (lon1 : ℝ) * Real.pi / 180
  let lat2r : ℝ := (lat2 : ℝ) * Real.pi / 180
  let lon2r : ℝ := (lon2 : ℝ) * Real.pi / 180
  let dlat := lat2r - lat1r
  let dlon := lon2r - lon1r
  let a := Real.sin (dlat/2) ^ 2 + Real.cos lat1r * Real.cos lat2r * Real.sin (dlon/2) ^ 2
  2 * Real.arcsin (Real.sqrt a) * 6371

/-- Result record of GPSService.analyze_route (dataclass RouteAnalysis). -/
structure RouteAnalysis where
  total_distance : ℝ
  total_duration : ℤ
  average_speed : ℚ
  max_speed : ℚ
  stop_count : ℕ
  stop_duration : ℤ

/-- Accumulator of the analysis loop in GPSService.analyze_route
(total_distance, max_speed, speeds, stop_count, stop_duration). -/
structure RouteAcc where
  total_distance : ℝ
  max_speed : ℚ
  speeds : List ℚ
  stop_count : ℕ
  stop_duration : ℤ

/-- Truthiness of the speed column in `if curr_point.speed:`: None and 0 are
falsy, every other value is truthy. -/
def truthySpeed (p : GPSLocation) : Option ℚ :=
  match p.speed with
  | none => none
  | some s => if s = 0 then none else some s

/-- One iteration of the loop `for i in range(1, len(gps_points))` of
GPSService.analyze_route, acting on the pair (prev_point, curr_point). -/
noncomputable def routeStep (acc : RouteAcc) (pr : GPSLocation × GPSLocation) : RouteAcc :=
  let acc1 : RouteAcc :=
    { acc with total_distance := acc.total_distance +
        calculate_distance pr.1.latitude pr.1.longitude pr.2.latitude pr.2.longitude }
  match truthySpeed pr.2 with
  | none => acc1
  | some s =>
    let acc2 : RouteAcc :=
      { acc1 with speeds := acc1.speeds ++ [s], max_speed := max acc1.max_speed s }
    if s < 5 then
      let time_diff := (pr.2.gps_time - pr.1.gps_time) / 60
      if 2 < time_diff then
        { acc2 with stop_count := acc2.stop_count + 1,
                    stop_duration := acc2.stop_duration + pyTrunc time_diff }
      else acc2
    else acc2

/-- List of (prev_point, curr_point) pairs the analysis loop walks over. -/
def consecPairs (l : List GPSLocation) : List (GPSLocation × GPSLocation) :=
  l.zip l.tail

/-- Embedding of GPSService.analyze_route, lines 231-283: the computation it
performs on the time-ordered point list fetched by get_tracking_history. -/
noncomputable def analyze_route (gps_points : List GPSLocation) : RouteAnalysis :=
  if gps_points.length < 2 then ⟨0, 0, 0, 0, 0, 0⟩
  else
    match gps_points with
    | [] => ⟨0, 0, 0, 0, 0, 0⟩
    | p0 :: _ =>
      let acc := (consecPairs gps_points).foldl routeStep ⟨0, 0, [], 0, 0⟩
      let total_duration := pyTrunc (((gps_points.getLastD p0).gps_time - p0.gps_time) / 60)
      let average_speed : ℚ :=
        if acc.speeds = [] then 0 else acc.speeds.sum / (acc.speeds.length : ℚ)
      { total_distance := rnd2 acc.total_distance
        total_duration := total_duration
        average_speed := rnd2 average_speed
        max_speed := rnd2 acc.max_speed
        stop_count := acc.stop_count
        stop_duration := acc.stop_duration }

/-- Decides whether a consecutive pair increments the stop counters in
analyze_route: truthy speed below 5 km/h and elapsed time above 2 minutes. -/
def stopPair (pr : GPSLocation × GPSLocation) : Bool :=
  match truthySpeed pr.2 with
  | none => false
  | some s => decide (s < 5) && decide (2 < (pr.2.gps_time - pr.1.gps_time) / 60)

/-- Minutes elapsed over a consecutive pair, as truncated by the source. -/
def stopMinutes (pr : GPSLocation × GPSLocation) : ℤ :=
  pyTrunc ((pr.2.gps_time - pr.1.gps_time) / 60)

/-- Computable list of the speeds collected by the analysis loop: the truthy
speed values of all points after the first. -/
def collectedSpeeds (gps_points : List GPSLocation) : List ℚ :=
  (consecPairs gps_points).filterMap (fun pr => truthySpeed pr.2)

/-! ## Durable store (database_optimizer.py)

A row of the partitioned table gps_locations_partitioned, whose primary key
is (vehicle_id, timestamp).  The geom column (a WKT point built from
longitude and latitude) is modelled by its coordinate pair. -/
structure GpsRow where
  vehicle_id : String
  latitude : ℚ
  longitude : ℚ
  speed : ℚ
  direction : ℚ
  timestamp : ℚ
  accuracy : ℚ
  geom : ℚ × ℚ
deriving DecidableEq, Repr

/-- Natural key of a durable row: the primary key (vehicle_id, timestamp). -/
def keyOf (r : GpsRow) : String × ℚ :=
  (r.vehicle_id, r.timestamp)

/-- Two rows collide on the ON CONFLICT (vehicle_id, timestamp) key. -/
def sameKey (a b : GpsRow) : Prop :=
  keyOf a = keyOf b

instance (a b : GpsRow) : Decidable (sameKey a b) := by
  unfold sameKey; infer_instance

/-- Effect of DO UPDATE SET in AsyncBatchProcessor._execute_batch_insert:
every non-key column takes the incoming (EXCLUDED) value. -/
def applyUpdate (incoming row : GpsRow) : GpsRow :=
  { row with latitude := incoming.latitude, longitude := incoming.longitude,
             speed := incoming.speed, direction := incoming.direction,
             accuracy := incoming.accuracy, geom := incoming.geom }

/-- Semantics of INSERT ... ON CONFLICT (vehicle_id, timestamp) DO UPDATE for
a single incoming row against the table state. -/
def upsertRow (table : List GpsRow) (r : GpsRow) : List GpsRow :=
  if table.any (fun row => decide (sameKey r row)) then
    table.map (fun row => if sameKey r row then applyUpdate r row else row)
  else table ++ [r]

/-- Embedding of AsyncBatchProcessor._execute_batch_insert: the statement is
executed once per dictionary of the batch, in batch order, in one
transaction. -/
def bulk_upsert (table : List GpsRow) (batch : List GpsRow) : List GpsRow :=
  batch.foldl upsertRow table

/-- Invariant maintained by the primary key: no two rows share a key. -/
def UniqueKeys (table : List GpsRow) : Prop :=
  table.Pairwise (fun a b => ¬ sameKey a b)

/-- Embedding of GPSQueryOptimizer.get_vehicle_track: filter by vehicle and
closed time interval (SQL BETWEEN), ORDER BY timestamp DESC, LIMIT. -/
def get_vehicle_track (store : List GpsRow) (vid : String)
    (start_time end_time : ℚ) (limit : ℕ) : List GpsRow :=
  ((store.filter (fun r =>
      decide (r.vehicle_id = vid) &&
      decide (start_time ≤ r.timestamp) && decide (r.timestamp ≤ end_time))).insertionSort
    (fun a b => b.timestamp ≤ a.timestamp)).take limit

/-- Filter object of GPSService.get_tracking_history (dataclass TrackingFilter). -/
structure TrackingFilter where
  shipment_id : Option String := none
  vehicle_id : Option String := none
  time_from : Option ℚ := none
  time_to : Option ℚ := none
  min_speed : Option ℚ := none
  max_speed : Option ℚ := none

/-- Conditions appended by get_tracking_history for the set filter fields.
A NULL speed column never satisfies a speed bound (SQL three-valued logic). -/
def glMatches (filters : TrackingFilter) (r : GPSLocation) : Bool :=
  (match filters.shipment_id with
   | none => true
   | some sid => decide (r.shipment_id = some sid)) &&
  (match filters.vehicle_id with
   | none => true
   | some vid => decide (r.vehicle_id = some vid)) &&
  (match filters.time_from with
   | none => true
   | some t => decide (t ≤ r.gps_time)) &&
  (match filters.time_to with
   | none => true
   | some t => decide (r.gps_time ≤ t)) &&
  (match filters.min_speed with
   | none => true
   | some m => match r.speed with
     | none => false
     | some s => decide (m ≤ s)) &&
  (match filters.max_speed with
   | none => true
   | some m => match r.speed with
     | none => false
     | some s => decide (s ≤ m))

/-- Embedding of GPSService.get_tracking_history: valid rows matching the
filters, ordered ascending by gps_time, limited. -/
def get_tracking_history (store : List GPSLocation) (filters : TrackingFilter)
    (limit : ℕ) : List GPSLocation :=
  ((store.filter (fun r => decide (r.is_valid = "1") && glMatches filters r)).insertionSort
    (fun a b => a.gps_time ≤ b.gps_time)).take limit

/-- Error raised by PostgreSQL when a statement contains a cast with no
cast path (SQLSTATE 42846), carrying the source and target type names. -/
inductive PgError where
  | cannotCast : String → String → PgError
deriving DecidableEq, Repr

/-- Result row type that the select list of get_vehicle_statistics
describes and the Python result dict would hold (point_count, avg_speed,
max_speed, first_update, last_update, distance_km).  No value of this type
is ever produced — see get_vehicle_statistics. -/
structure VehicleStats where
  point_count : ℕ
  avg_speed : ℚ
  max_speed : ℚ
  first_update : ℚ
  last_update : ℚ
  distance_km : ℝ

/-- Embedding of GPSQueryOptimizer.get_vehicle_statistics.  Its select list
computes `ST_Distance(ST_MakePoint(MIN(longitude), MIN(latitude)),
ST_MakePoint(MAX(longitude), MAX(latitude)))::geography / 1000`: the cast
binds to the ST_Distance call, whose result is double precision, and
PostGIS defines no cast from double precision to geography.  PostgreSQL
therefore rejects the statement during analysis, before reading any row of
any store; SQLAlchemy raises, and the method, which has no exception
handling, propagates the error for every store, vehicle id and time
window.  No statistics row and no distance_km value is ever reported. -/
def get_vehicle_statistics (_store : List GpsRow) (_vid : String)
    (_since_time : ℚ) : Except PgError (List (String × VehicleStats)) :=
  Except.error (PgError.cannotCast "double precision" "geography")

/-- Dataclass GPSBatchData of database_optimizer.py. -/
structure GPSBatchData where
  vehicle_id : String
  latitude : ℚ
  longitude : ℚ
  speed : ℚ
  direction : ℚ
  timestamp : ℚ
  accuracy : ℚ := 5
deriving DecidableEq, Repr

/-- Dictionary built by AsyncBatchProcessor.add_gps_data from a GPSBatchData,
with the geom WKT string modelled by its (longitude, latitude) pair. -/
def rowOf (g : GPSBatchData) : GpsRow :=
  { vehicle_id := g.vehicle_id
    latitude := g.latitude
    longitude := g.longitude
    speed := g.speed
    direction := g.direction
    timestamp := g.timestamp
    accuracy := g.accuracy
    geom := (g.longitude, g.latitude) }

/-- State of an AsyncBatchProcessor together with the durable table its
flushes write to.  The processor keeps one shared buffer for all vehicles. -/
structure BPState where
  batch_size : ℕ
  buffer : List GpsRow
  table : List GpsRow
deriving DecidableEq, Repr

/-- Embedding of AsyncBatchProcessor._flush_batch composed with
_execute_batch_insert: copy the whole buffer, clear it, upsert the batch. -/
def flush_batch (st : BPState) : BPState :=
  if st.buffer = [] then st
  else { st with buffer := [], table := bulk_upsert st.table st.buffer }

/-- Embedding of AsyncBatchProcessor.add_gps_data: append the row dictionary
to the shared buffer with no validation, then flush immediately when the
buffer has reached batch_size. -/
def add_gps_data (st : BPState) (g : GPSBatchData) : BPState :=
  let st1 : BPState := { st with buffer := st.buffer ++ [rowOf g] }
  if st.batch_size ≤ st1.buffer.length then flush_batch st1 else st1

/-! ## G7 integration boundary (g7_api.py)

G7LocationData is the pydantic model whose validators are the only
coordinate/speed range checks in the ingestion paths. -/
structure G7LocationData where
  device_id : String
  vehicle_id : String
  latitude : ℚ
  longitude : ℚ
  speed : ℚ
  heading : ℚ
  accuracy : ℚ
  timestamp : ℚ
deriving DecidableEq, Repr

/-- Embedding of the pydantic validators of G7LocationData: pydantic runs
validate_latitude, validate_longitude and validate_speed, and the model is
rejected with the first raised ValueError. -/
def g7_validate (d : G7LocationData) : Except String G7LocationData :=
  if ¬ (-90 ≤ d.latitude ∧ d.latitude ≤ 90) then
    Except.error "Latitude must be between -90 and 90"
  else if ¬ (-180 ≤ d.longitude ∧ d.longitude ≤ 180) then
    Except.error "Longitude must be between -180 and 180"
  else if d.speed < 0 then
    Except.error "Speed cannot be negative"
  else Except.ok d

/-- Dataclass GPSPoint of redis_optimizer.py. -/
structure GPSPoint where
  lat : ℚ
  lng : ℚ
  timestamp : ℚ
  speed : ℚ
  direction : ℚ
deriving DecidableEq, Repr

/-- Value of a finite binary32 bit pattern given as sign, biased exponent
and mantissa fields. -/
def f32val (s : Bool) (E M : ℕ) : ℚ :=
  (if s then (-1 : ℚ) else 1) *
    (if E = 0 then (M : ℚ) * (2 : ℚ) ^ (-(149 : ℤ))
     else ((2 ^ 23 + M : ℕ) : ℚ) * (2 : ℚ) ^ ((E : ℤ) - 150))

/-- Finite binary32 values: some sign/exponent/mantissa triple denotes the
rational exactly. -/
def IsFiniteF32 (v : ℚ) : Prop :=
  ∃ s E M, E ≤ 254 ∧ M < 2 ^ 23 ∧ v = f32val s E M

/-- Round-to-nearest-even of a rational into the binary32 value grid
(without overflow clamping; the claims only use it below the overflow
threshold).  This is the conversion numpy performs when a Python float is
stored with dtype float32. -/
def f32round (q : ℚ) : ℚ :=
  if q = 0 then 0
  else
    let e : ℤ := max (Int.log 2 |q|) (-126)
    let step : ℚ := (2 : ℚ) ^ (e - 23)
    (if q < 0 then (-1 : ℚ) else 1) * ((rne (|q| / step) : ℤ) : ℚ) * step

/-- Bit pattern of a finite binary32 value. -/
def splitBits (v : ℚ) : ℕ :=
  let s : ℕ := if v < 0 then 2 ^ 31 else 0
  if v = 0 then s
  else
    let e : ℤ := max (Int.log 2 |v|) (-126)
    let m : ℚ := |v| / (2 : ℚ) ^ (e - 23)
    let M : ℕ := (⌊m⌋).toNat
    if M < 2 ^ 23 then s + M
    else s + (e + 127).toNat * 2 ^ 23 + (M - 2 ^ 23)

/-- Value denoted by a 32-bit pattern; none for the exponent-255 patterns
(infinities and NaNs). -/
def fromBits (b : ℕ) : Option ℚ :=
  let s : ℕ := b / 2 ^ 31 % 2
  let E : ℕ := b / 2 ^ 23 % 256
  let M : ℕ := b % 2 ^ 23
  if E = 255 then none
  else some ((if s = 1 then (-1 : ℚ) else 1) *
    (if E = 0 then (M : ℚ) * (2 : ℚ) ^ (-(149 : ℤ))
     else ((2 ^ 23 + M : ℕ) : ℚ) * (2 : ℚ) ^ ((E : ℤ) - 150)))

/-- Little-endian byte serialization of one 32-bit pattern. -/
def toLE4 (n : ℕ) : List ℕ :=
  [n % 256, n / 256 % 256, n / 2 ^ 16 % 256, n / 2 ^ 24 % 256]

/-- Embedding of OptimizedGPSCache._compress_gps_point: the 20-byte block of
the five fields converted to float32, in order lat, lng, timestamp, speed,
direction. -/
def compress_gps_point (p : GPSPoint) : List ℕ :=
  toLE4 (splitBits (f32round p.lat)) ++ toLE4 (splitBits (f32round p.lng)) ++
  toLE4 (splitBits (f32round p.timestamp)) ++ toLE4 (splitBits (f32round p.speed)) ++
  toLE4 (splitBits (f32round p.direction))

/-- Failure modes of _decompress_gps_point: np.frombuffer raises ValueError
when the byte length is not a multiple of the 4-byte item size, and the
indexing arr[i] raises IndexError when the array is too short. -/
inductive DecodeError where
  | valueError : DecodeError
  | indexError : DecodeError
deriving DecidableEq, Repr

/-- Decoded point: each field is the value of one float32 word, none when
the word is a non-finite pattern. -/
structure F32Point where
  lat : Option ℚ
  lng : Option ℚ
  timestamp : Option ℚ
  speed : Option ℚ
  direction : Option ℚ
deriving DecidableEq, Repr

/-- Little-endian 4-byte grouping performed by np.frombuffer(dtype=float32). -/
def chunk4 : List ℕ → List ℕ
  | b0 :: b1 :: b2 :: b3 :: rest =>
      (b0 + 256 * b1 + 2 ^ 16 * b2 + 2 ^ 24 * b3) :: chunk4 rest
  | _ => []

/-- Embedding of OptimizedGPSCache._decompress_gps_point: reinterpret the
bytes as float32 words and read the first five; no length-20 check is
performed, so any block with at least five complete words decodes. -/
def decompress_gps_point (data : List ℕ) : Except DecodeError F32Point :=
  if data.length % 4 ≠ 0 then Except.error DecodeError.valueError
  else
    match chunk4 data with
    | a0 :: a1 :: a2 :: a3 :: a4 :: _ =>
        Except.ok ⟨fromBits a0, fromBits a1, fromBits a2, fromBits a3, fromBits a4⟩
    | _ => Except.error DecodeError.indexError

/-- Magnitude denoted by the exponent and mantissa fields of a finite
binary32 pattern. -/
def f32mag (E M : ℕ) : ℚ :=
  if E = 0 then (M : ℚ) * (2 : ℚ) ^ (-(149 : ℤ))
  else ((2 ^ 23 + M : ℕ) : ℚ) * (2 : ℚ) ^ ((E : ℤ) - 150)

/-- Lookup in an association list (dict access). -/
def getA {α : Type} : List (String × α) → String → Option α
  | [], _ => none
  | kv :: l, k => if kv.1 = k then some kv.2 else getA l k

/-- Update-or-insert in an association list (dict assignment). -/
def setA {α : Type} : List (String × α) → String → α → List (String × α)
  | [], k, v => [(k, v)]
  | kv :: l, k, v => if kv.1 = k then (k, v) :: l else kv :: setA l k v

/-- State of the Redis stores touched by _flush_write_buffer: the per-vehicle
latest-location hash, the geo index (longitude, latitude) and the per-vehicle
track lists of compressed 20-byte blocks, most recent first. -/
structure RedisState where
  vehicles : List (String × GPSPoint)
  geo : List (String × (ℚ × ℚ))
  tracks : List (String × List (List ℕ))
deriving DecidableEq, Repr

/-- Per-vehicle track update of _flush_write_buffer: lpush each compressed
point in batch order, then ltrim 0 199 (keep the 200 newest blocks). -/
def pushBatch (hist : List (List ℕ)) (batch : List GPSPoint) : List (List ℕ) :=
  ((batch.map compress_gps_point).foldl (fun h b => b :: h) hist).take 200

/-- One iteration of the `for vehicle_id, gps_points in write_buffer.items()`
loop of _flush_write_buffer; empty point lists are skipped. -/
def flushEntry (r : RedisState) (vid : String) (pts : List GPSPoint) : RedisState :=
  match pts.getLast? with
  | none => r
  | some latest =>
    { vehicles := setA r.vehicles vid latest
      geo := setA r.geo vid (latest.lng, latest.lat)
      tracks := setA r.tracks vid (pushBatch ((getA r.tracks vid).getD []) pts) }

/-- State of an OptimizedGPSCache: the write buffer dict, the Redis stores
and the write counter. -/
structure CacheState where
  write_buffer : List (String × List GPSPoint)
  redis : RedisState
  write_count : ℕ
deriving DecidableEq, Repr

/-- Batch size hardcoded to 50 in OptimizedGPSCache.__init__. -/
def cacheBatchSize : ℕ := 50

/-- Embedding of OptimizedGPSCache._flush_write_buffer: write every buffered
vehicle's points to the Redis stores, then clear the whole buffer. -/
def flush_write_buffer (st : CacheState) : CacheState :=
  if st.write_buffer = [] then st
  else
    { write_buffer := []
      redis := st.write_buffer.foldl (fun r kv => flushEntry r kv.1 kv.2) st.redis
      write_count := st.write_count + (st.write_buffer.map (fun kv => kv.2.length)).sum }

/-- Embedding of OptimizedGPSCache.cache_gps_point: append the point to the
vehicle's buffer entry (creating it when absent); once this vehicle's buffer
has reached batch_size, flush the whole write buffer at once. -/
def cache_gps_point (st : CacheState) (vid : String) (p : GPSPoint) : CacheState :=
  let pts := ((getA st.write_buffer vid).getD []) ++ [p]
  let st1 : CacheState := { st with write_buffer := setA st.write_buffer vid pts }
  if cacheBatchSize ≤ pts.length then flush_write_buffer st1 else st1

/-- Track contents after a sequence of flushed batches for one vehicle,
starting from an absent key; empty batches are skipped as in the flush loop. -/
def histAfter (batches : List (List GPSPoint)) : List (List ℕ) :=
  batches.foldl (fun h b => if b = [] then h else pushBatch h b) []

/-! ## Concrete instances used by the theorems below -/

/-- Synthetic 3-point sequence of the spec's stop-detection test: point2
arrives 10 minutes after point1 with speed 0, point3 arrives 1 minute after
point2 with speed 60. -/
def exC1A : List GPSLocation :=
  [⟨none, none, 39.9, 116.4, some 30, 0, "1"⟩,
   ⟨none, none, 39.9, 116.4, some 0, 600, "1"⟩,
   ⟨none, none, 39.9, 116.4, some 60, 660, "1"⟩]

/-- Sequence with two consecutive qualifying stop gaps (speed 1 km/h, 3
minutes each), one maximal run in the spec's reading. -/
def exC1B : List GPSLocation :=
  [⟨none, none, 39.9, 116.4, some 30, 0, "1"⟩,
   ⟨none, none, 39.9, 116.4, some 1, 180, "1"⟩,
   ⟨none, none, 39.9, 116.4, some 1, 360, "1"⟩]

/-- Two points at identical coordinates one hour apart, the later one
reporting 60 km/h: path distance 0 with nonzero duration. -/
def exC2 : List GPSLocation :=
  [⟨none, none, 10, 20, none, 0, "1"⟩,
   ⟨none, none, 10, 20, some 60, 3600, "1"⟩]

/-- First write of the C3 upsert scenario. -/
def exRow1 : GpsRow :=
  ⟨"veh-1", 30, 120, 40, 90, 1000, 5, (120, 30)⟩

/-- Second write with the same (vehicle_id, timestamp) key but different
speed, direction and accuracy. -/
def exRow2 : GpsRow :=
  ⟨"veh-1", 31, 121, 55, 180, 1000, 8, (121, 31)⟩

/-- Point with out-of-range latitude and longitude and negative speed. -/
def exBadPoint : GPSBatchData :=
  ⟨"veh-bad", 100, 200, -5, 0, 0, 5⟩

/-- Valid point for the witness instances. -/
def exGoodPoint : GPSBatchData :=
  ⟨"veh-2", 39, 116, 10, 0, 0, 5⟩

/-- In-range G7 location payload. -/
def exG7 : G7LocationData :=
  ⟨"dev-1", "veh-2", 39, 116, 10, 0, 5, 0⟩

/-- Fresh batch processor with the default batch size 500. -/
def exBP : BPState :=
  ⟨500, [], []⟩

/-- Durable store with two rows of one vehicle at timestamps 1 and 2. -/
def exTrackStore : List GpsRow :=
  [⟨"v", 1, 1, 10, 0, 1, 5, (1, 1)⟩,
   ⟨"v", 2, 2, 20, 0, 2, 5, (2, 2)⟩]

/-- Store holding two rows of vehicle v, both inside the time window
starting at 0. -/
def exStatsStore : List GpsRow :=
  [⟨"v", 10, 30, 10, 0, 0, 5, (30, 10)⟩,
   ⟨"v", 20, 5, 20, 0, 1, 5, (5, 20)⟩]

/-- Buffered cache point of vehicle A. -/
def exPointA : GPSPoint :=
  ⟨1, 2, 3, 4, 5⟩

/-- Buffered cache point of vehicle B. -/
def exPointB : GPSPoint :=
  ⟨6, 7, 8, 9, 10⟩

/-- Cache state in which vehicle A has 49 buffered points and vehicle B has
one buffered point; one more point for A reaches batch_size = 50. -/
def exCacheState : CacheState :=
  ⟨[("A", List.replicate 49 exPointA), ("B", [exPointB])], ⟨[], [], []⟩, 0⟩

/-- Byte block of 24 zero bytes: not 20 bytes long, yet six complete float32
words. -/
def exBlock24 : List ℕ :=
  List.replicate 24 0

/-- Point whose fields 1.5, 0, 0, 0, 0 are all exactly representable in
binary32. -/
def exC10Point : GPSPoint :=
  ⟨3/2, 0, 0, 0, 0⟩

lemma routeStep_stop_count (acc : RouteAcc) (pr : GPSLocation × GPSLocation) :
    (routeStep acc pr).stop_count = acc.stop_count + (if stopPair pr then 1 else 0) := by
  unfold routeStep stopPair
  cases h : truthySpeed pr.2 with
  | none => simp
  | some s =>
    by_cases h5 : s < 5
    · by_cases h2 : 2 < (pr.2.gps_time - pr.1.gps_time) / 60 <;> simp [h5, h2]
    · simp [h5]

lemma routeStep_stop_duration (acc : RouteAcc) (pr : GPSLocation × GPSLocation) :
    (routeStep acc pr).stop_duration =
      acc.stop_duration + (if stopPair pr then stopMinutes pr else 0) := by
  unfold routeStep stopPair stopMinutes
  cases h : truthySpeed pr.2 with
  | none => simp
  | some s =>
    by_cases h5 : s < 5
    · by_cases h2 : 2 < (pr.2.gps_time - pr.1.gps_time) / 60 <;> simp [h5, h2]
    · simp [h5]

lemma routeStep_speeds (acc : RouteAcc) (pr : GPSLocation × GPSLocation) :
    (routeStep acc pr).speeds = acc.speeds ++ (truthySpeed pr.2).toList := by
  unfold routeStep
  cases h : truthySpeed pr.2 with
  | none => simp
  | some s =>
    by_cases h5 : s < 5
    · by_cases h2 : 2 < (pr.2.gps_time - pr.1.gps_time) / 60 <;> simp [h5, h2]
    · simp [h5]

lemma foldl_routeStep_stop_count (l : List (GPSLocation × GPSLocation)) (acc : RouteAcc) :
    (l.foldl routeStep acc).stop_count = acc.stop_count + l.countP stopPair := by
  induction l generalizing acc with
  | nil => simp
  | cons pr l ih =>
    rw [List.foldl_cons, ih, routeStep_stop_count, List.countP_cons]
    cases h : stopPair pr with
    | false => simp [h]
    | true => simp [h]; omega

lemma foldl_routeStep_stop_duration (l : List (GPSLocation × GPSLocation)) (acc : RouteAcc) :
    (l.foldl routeStep acc).stop_duration =
      acc.stop_duration + ((l.filter stopPair).map stopMinutes).sum := by
  induction l generalizing acc with
  | nil => simp
  | cons pr l ih =>
    rw [List.foldl_cons, ih, routeStep_stop_duration, List.filter_cons]
    cases h : stopPair pr with
    | false => simp [h]
    | true => simp [h]; ring

lemma foldl_routeStep_speeds (l : List (GPSLocation × GPSLocation)) (acc : RouteAcc) :
    (l.foldl routeStep acc).speeds =
      acc.speeds ++ l.filterMap (fun pr => truthySpeed pr.2) := by
  induction l generalizing acc with
  | nil => simp
  | cons pr l ih =>
    rw [List.foldl_cons, ih, routeStep_speeds]
    cases h : truthySpeed pr.2 <;> simp [h]

lemma analyze_route_stop_count (gps_points : List GPSLocation) :
    (analyze_route gps_points).stop_count = (consecPairs gps_points).countP stopPair := by
  unfold analyze_route
  by_cases h : gps_points.length < 2
  · have : (consecPairs gps_points).countP stopPair = 0 := by
      match gps_points, h with
      | [], _ => simp [consecPairs]
      | [p], _ => simp [consecPairs]
      | p :: q :: l, h => simp at h; omega
    simp [h, this]
  · match gps_points, h with
    | p0 :: rest, h =>
      have h' : ¬ (rest.length + 1 < 2) := by simpa using h
      simp [h', foldl_routeStep_stop_count]

lemma analyze_route_stop_duration (gps_points : List GPSLocation) :
    (analyze_route gps_points).stop_duration =
      (((consecPairs gps_points).filter stopPair).map stopMinutes).sum := by
  unfold analyze_route
  by_cases h : gps_points.length < 2
  · have : (consecPairs gps_points).filter stopPair = [] := by
      match gps_points, h with
      | [], _ => simp [consecPairs]
      | [p], _ => simp [consecPairs]
      | p :: q :: l, h => simp at h; omega
    simp [h, this]
  · match gps_points, h with
    | p0 :: rest, h =>
      have h' : ¬ (rest.length + 1 < 2) := by simpa using h
      simp [h', foldl_routeStep_stop_duration]

lemma analyze_route_average_speed (gps_points : List GPSLocation)
    (h : ¬ gps_points.length < 2) :
    (analyze_route gps_points).average_speed =
      rnd2 (if collectedSpeeds gps_points = [] then (0 : ℚ)
            else (collectedSpeeds gps_points).sum / ((collectedSpeeds gps_points).length : ℚ)) := by
  unfold analyze_route
  match gps_points, h with
  | p0 :: rest, h =>
    have h' : ¬ (rest.length + 1 < 2) := by simpa using h
    have hs : (List.foldl routeStep ⟨0, 0, [], 0, 0⟩ (consecPairs (p0 :: rest))).speeds
        = collectedSpeeds (p0 :: rest) := by
      simpa [collectedSpeeds] using foldl_routeStep_speeds (consecPairs (p0 :: rest)) ⟨0, 0, [], 0, 0⟩
    simp [h', hs]

lemma sameKey_refl (a : GpsRow) : sameKey a a := rfl

lemma keyOf_applyUpdate (incoming row : GpsRow) :
    keyOf (applyUpdate incoming row) = keyOf row := rfl

lemma applyUpdate_eq_self {r row : GpsRow} (h : sameKey r row) : applyUpdate r row = r := by
  cases r; cases row
  simp only [sameKey, keyOf, Prod.mk.injEq] at h
  simp [applyUpdate, h.1, h.2]

lemma sameKey_ite (r x y : GpsRow) :
    sameKey (if sameKey r x then applyUpdate r x else x)
            (if sameKey r y then applyUpdate r y else y) ↔ sameKey x y := by
  unfold sameKey
  split <;> split <;> simp [keyOf_applyUpdate]

lemma upsert_map_filter (r : GpsRow) :
    ∀ table : List GpsRow, UniqueKeys table →
      table.any (fun row => decide (sameKey r row)) = true →
      (table.map (fun row => if sameKey r row then applyUpdate r row else row)).filter
          (fun row => decide (sameKey r row)) = [r] := by
  intro table
  induction table with
  | nil => intro _ h; simp at h
  | cons row rest ih =>
    intro hu hany
    rcases List.pairwise_cons.mp hu with ⟨hhead, htail⟩
    by_cases hk : sameKey r row
    · have hnone : ∀ x ∈ rest, ¬ sameKey r x := by
        intro x hx hcon
        exact hhead x hx (hk.symm.trans hcon)
      have hrest : (rest.map (fun row => if sameKey r row then applyUpdate r row else row)).filter
          (fun row => decide (sameKey r row)) = [] := by
        rw [List.filter_eq_nil_iff]
        intro x hx
        rcases List.mem_map.mp hx with ⟨y, hy, hxy⟩
        have : ¬ sameKey r y := hnone y hy
        simp [this] at hxy
        subst hxy
        simpa using this
      simp only [List.map_cons, List.filter_cons, hk, if_true]
      rw [applyUpdate_eq_self hk]
      simp [sameKey_refl, hrest]
    · have hany' : rest.any (fun row => decide (sameKey r row)) = true := by
        simpa [hk] using hany
      simpa [hk] using ih htail hany'

lemma upsert_filter (table : List GpsRow) (r : GpsRow) (hu : UniqueKeys table) :
    (upsertRow table r).filter (fun row => decide (sameKey r row)) = [r] := by
  unfold upsertRow
  by_cases hany : table.any (fun row => decide (sameKey r row)) = true
  · rw [if_pos hany]
    exact upsert_map_filter r table hu hany
  · rw [if_neg hany]
    replace hany : ∀ x ∈ table, ¬ sameKey r x := by
      intro x hx hcon
      exact hany (List.any_eq_true.mpr ⟨x, hx, by simpa using hcon⟩)
    rw [List.filter_append]
    have h1 : table.filter (fun row => decide (sameKey r row)) = [] := by
      rw [List.filter_eq_nil_iff]
      intro x hx
      simpa using hany x hx
    rw [h1]
    simp [sameKey_refl]

lemma upsert_unique (table : List GpsRow) (r : GpsRow) (hu : UniqueKeys table) :
    UniqueKeys (upsertRow table r) := by
  unfold upsertRow
  by_cases hany : table.any (fun row => decide (sameKey r row)) = true
  · rw [if_pos hany]
    unfold UniqueKeys at *
    rw [List.pairwise_map]
    refine hu.imp ?_
    intro a b hab hcon
    exact hab ((sameKey_ite r a b).mp hcon)
  · rw [if_neg hany]
    replace hany : ∀ x ∈ table, ¬ sameKey r x := by
      intro x hx hcon
      exact hany (List.any_eq_true.mpr ⟨x, hx, by simpa using hcon⟩)
    unfold UniqueKeys at *
    rw [List.pairwise_append]
    refine ⟨hu, by simp, ?_⟩
    intro x hx y hy
    simp only [List.mem_singleton] at hy
    subst hy
    intro hcon
    exact hany x hx hcon.symm

lemma chunk4_length : ∀ data : List ℕ, (chunk4 data).length = data.length / 4
  | [] => rfl
  | [_] => by simp [chunk4]
  | [_, _] => by simp [chunk4]
  | [_, _, _] => by simp [chunk4]
  | _ :: _ :: _ :: _ :: rest => by
      rw [chunk4, List.length_cons, chunk4_length rest]
      simp only [List.length_cons]
      omega

lemma chunk4_toLE4_append (a : ℕ) (ha : a < 2 ^ 32) (rest : List ℕ) :
    chunk4 (toLE4 a ++ rest) = a :: chunk4 rest := by
  have hv : a % 256 + 256 * (a / 256 % 256) + 2 ^ 16 * (a / 2 ^ 16 % 256)
      + 2 ^ 24 * (a / 2 ^ 24 % 256) = a := by omega
  simp only [toLE4, List.cons_append, List.nil_append]
  rw [chunk4, hv]

lemma f32val_def (s : Bool) (E M : ℕ) :
    f32val s E M = (if s then (-1 : ℚ) else 1) * f32mag E M := rfl

lemma two_zpow_pos (z : ℤ) : (0:ℚ) < (2:ℚ) ^ z := zpow_pos (by norm_num) z

lemma f32mag_nonneg (E M : ℕ) : 0 ≤ f32mag E M := by
  unfold f32mag; split <;> positivity

lemma f32mag_eq_zero (E M : ℕ) : f32mag E M = 0 ↔ (E = 0 ∧ M = 0) := by
  unfold f32mag
  by_cases hE : E = 0
  · subst hE
    rw [if_pos rfl]
    constructor
    · intro h
      rcases mul_eq_zero.mp h with h | h
      · exact ⟨rfl, by exact_mod_cast h⟩
      · exact absurd h (two_zpow_pos _).ne'
    · rintro ⟨-, rfl⟩
      simp
  · have h1 : (0:ℚ) < ((2 ^ 23 + M : ℕ) : ℚ) := by
      have : 0 < 2 ^ 23 + M := by positivity
      exact_mod_cast this
    simp only [hE, if_false, false_and, iff_false]
    exact (mul_pos h1 (two_zpow_pos _)).ne'

lemma abs_f32val (s : Bool) (E M : ℕ) : |f32val s E M| = f32mag E M := by
  rw [f32val_def, abs_mul]
  have h1 : |if s then (-1 : ℚ) else 1| = 1 := by cases s <;> simp
  rw [h1, one_mul, abs_of_nonneg (f32mag_nonneg E M)]

lemma f32val_eq_zero (s : Bool) (E M : ℕ) : f32val s E M = 0 ↔ (E = 0 ∧ M = 0) := by
  rw [← abs_eq_zero, abs_f32val, f32mag_eq_zero]

lemma f32mag_pos (E M : ℕ) (h : ¬(E = 0 ∧ M = 0)) : 0 < f32mag E M :=
  lt_of_le_of_ne (f32mag_nonneg E M) (Ne.symm (fun hc => h ((f32mag_eq_zero E M).mp hc)))

lemma f32val_neg_iff (s : Bool) (E M : ℕ) :
    f32val s E M < 0 ↔ (s = true ∧ ¬(E = 0 ∧ M = 0)) := by
  rw [f32val_def]
  cases s
  · simp only [if_false, one_mul, Bool.false_eq_true, false_and, iff_false, not_lt]
    exact f32mag_nonneg E M
  · simp only [if_true, true_and, neg_one_mul, neg_lt_zero]
    constructor
    · intro h hc
      rw [(f32mag_eq_zero E M).mpr hc] at h
      exact lt_irrefl 0 h
    · exact f32mag_pos E M

lemma f32mag_lower (E M : ℕ) (hE : E ≠ 0) : (2:ℚ) ^ ((E:ℤ)-127) ≤ f32mag E M := by
  unfold f32mag
  rw [if_neg hE]
  have h1 : ((2:ℚ)) ^ ((E:ℤ)-127) = (2:ℚ) ^ (23:ℤ) * (2:ℚ) ^ ((E:ℤ)-150) := by
    rw [← zpow_add₀ (two_ne_zero)]
    congr 1
    omega
  rw [h1]
  have h2 : ((2:ℚ)) ^ (23:ℤ) ≤ ((2 ^ 23 + M : ℕ) : ℚ) := by
    push_cast
    norm_num
  exact mul_le_mul_of_nonneg_right h2 (le_of_lt (two_zpow_pos _))

lemma f32mag_upper (E M : ℕ) (hE : E ≠ 0) (hM : M < 2 ^ 23) :
    f32mag E M < (2:ℚ) ^ ((E:ℤ)-126) := by
  unfold f32mag
  rw [if_neg hE]
  have h1 : ((2:ℚ)) ^ ((E:ℤ)-126) = (2:ℚ) ^ (24:ℤ) * (2:ℚ) ^ ((E:ℤ)-150) := by
    rw [← zpow_add₀ (two_ne_zero)]
    congr 1
    omega
  rw [h1]
  have h2 : ((2 ^ 23 + M : ℕ) : ℚ) < (2:ℚ) ^ (24:ℤ) := by
    have : (2 ^ 23 + M) < 2 ^ 24 := by omega
    have h3 : ((2 ^ 23 + M : ℕ) : ℚ) < ((2 ^ 24 : ℕ) : ℚ) := by exact_mod_cast this
    calc ((2 ^ 23 + M : ℕ) : ℚ) < ((2 ^ 24 : ℕ) : ℚ) := h3
    _ = (2:ℚ) ^ (24:ℤ) := by push_cast; norm_num
  exact mul_lt_mul_of_pos_right h2 (two_zpow_pos _)

lemma f32mag_sub_upper (M : ℕ) (hM : M < 2 ^ 23) : f32mag 0 M < (2:ℚ) ^ (-(126:ℤ)) := by
  unfold f32mag
  rw [if_pos rfl]
  have h1 : ((2:ℚ)) ^ (-(126:ℤ)) = (2:ℚ) ^ (23:ℤ) * (2:ℚ) ^ (-(149:ℤ)) := by
    rw [← zpow_add₀ (two_ne_zero)]
    norm_num
  rw [h1]
  have h2 : (M : ℚ) < (2:ℚ) ^ (23:ℤ) := by
    have h3 : (M : ℚ) < ((2 ^ 23 : ℕ) : ℚ) := by exact_mod_cast hM
    calc (M:ℚ) < ((2 ^ 23 : ℕ) : ℚ) := h3
    _ = (2:ℚ) ^ (23:ℤ) := by push_cast; norm_num
  exact mul_lt_mul_of_pos_right h2 (two_zpow_pos _)

lemma log_f32mag (E M : ℕ) (hE : E ≠ 0) (hM : M < 2 ^ 23) :
    Int.log 2 (f32mag E M) = (E:ℤ) - 127 := by
  have hpos : (0:ℚ) < f32mag E M := f32mag_pos E M (fun hc => hE hc.1)
  have h1 : (E:ℤ) - 127 ≤ Int.log 2 (f32mag E M) := by
    rw [← Int.zpow_le_iff_le_log one_lt_two hpos]
    exact_mod_cast f32mag_lower E M hE
  have h2 : Int.log 2 (f32mag E M) < (E:ℤ) - 126 := by
    rw [← Int.lt_zpow_iff_log_lt one_lt_two hpos]
    exact_mod_cast f32mag_upper E M hE hM
  omega

lemma log_f32mag_sub (M : ℕ) (hM0 : M ≠ 0) (hM : M < 2 ^ 23) :
    Int.log 2 (f32mag 0 M) < -126 := by
  have hpos : (0:ℚ) < f32mag 0 M := f32mag_pos 0 M (fun hc => hM0 hc.2)
  rw [← Int.lt_zpow_iff_log_lt one_lt_two hpos]
  exact_mod_cast f32mag_sub_upper M hM

lemma f32mag_div_normal (E M : ℕ) (hE : E ≠ 0) :
    f32mag E M / (2:ℚ) ^ ((E:ℤ) - 127 - 23) = ((2 ^ 23 + M : ℕ) : ℚ) := by
  unfold f32mag
  rw [if_neg hE]
  have h : (E:ℤ) - 127 - 23 = (E:ℤ) - 150 := by ring
  rw [h, mul_div_cancel_right₀ _ (two_zpow_pos ((E:ℤ) - 150)).ne']

lemma f32mag_div_sub (M : ℕ) :
    f32mag 0 M / (2:ℚ) ^ ((-126:ℤ) - 23) = (M : ℚ) := by
  unfold f32mag
  rw [if_pos rfl]
  have h : (-126:ℤ) - 23 = -(149:ℤ) := by norm_num
  rw [h, mul_div_cancel_right₀ _ (two_zpow_pos (-(149:ℤ))).ne']

lemma rne_intCast (n : ℤ) : rne ((n : ℚ)) = n := by
  simp only [rne, Int.floor_intCast, sub_self]
  norm_num

lemma rne_natCast (n : ℕ) : rne ((n : ℚ)) = (n : ℤ) := by
  have h := rne_intCast (n : ℤ)
  rwa [Int.cast_natCast] at h

lemma signFactor (s : Bool) (E M : ℕ) (hnz : ¬(E = 0 ∧ M = 0)) :
    (if f32val s E M < 0 then (-1 : ℚ) else 1) = (if s then -1 else 1) := by
  cases s
  · rw [if_neg, if_neg]
    · simp
    · rw [f32val_neg_iff]
      simp
  · rw [if_pos ((f32val_neg_iff true E M).mpr ⟨rfl, hnz⟩), if_pos rfl]

lemma splitBits_f32val_nz (s : Bool) (E M : ℕ) (hE : E ≤ 254) (hM : M < 2 ^ 23)
    (hnz : ¬(E = 0 ∧ M = 0)) :
    splitBits (f32val s E M) = (if s then 2 ^ 31 else 0) + E * 2 ^ 23 + M := by
  have hvnz : f32val s E M ≠ 0 := fun hc => hnz ((f32val_eq_zero s E M).mp hc)
  have hsb : (if f32val s E M < 0 then (2:ℕ) ^ 31 else 0) = (if s then 2 ^ 31 else 0) := by
    cases s
    · rw [if_neg]
      · simp
      · rw [f32val_neg_iff]
        simp
    · rw [if_pos ((f32val_neg_iff true E M).mpr ⟨rfl, hnz⟩), if_pos rfl]
  simp only [splitBits]
  rw [if_neg hvnz, hsb, abs_f32val]
  by_cases hE0 : E = 0
  · subst hE0
    have hM0 : M ≠ 0 := fun h => hnz ⟨rfl, h⟩
    rw [max_eq_right (le_of_lt (log_f32mag_sub M hM0 hM)), f32mag_div_sub,
      Int.floor_natCast, Int.toNat_natCast, if_pos hM]
    omega
  · have hlog : max (Int.log 2 (f32mag E M)) (-126) = (E:ℤ) - 127 := by
      rw [log_f32mag E M hE0 hM]
      refine max_eq_left ?_
      have : 1 ≤ E := Nat.one_le_iff_ne_zero.mpr hE0
      omega
    rw [hlog, f32mag_div_normal E M hE0, Int.floor_natCast, Int.toNat_natCast,
      if_neg (by omega : ¬ (2 ^ 23 + M < 2 ^ 23))]
    have h1 : ((E:ℤ) - 127 + 127).toNat = E := by omega
    rw [h1]
    omega

lemma fromBits_pattern (s : Bool) (E M : ℕ) (hE : E ≤ 254) (hM : M < 2 ^ 23) :
    fromBits ((if s then 2 ^ 31 else 0) + E * 2 ^ 23 + M) = some (f32val s E M) := by
  have hsf : ((if s then (2:ℕ) ^ 31 else 0) + E * 2 ^ 23 + M) / 2 ^ 31 % 2
      = (if s then 1 else 0) := by
    cases s <;> simp <;> omega
  have hEf : ((if s then (2:ℕ) ^ 31 else 0) + E * 2 ^ 23 + M) / 2 ^ 23 % 256 = E := by
    cases s <;> simp <;> omega
  have hMf : ((if s then (2:ℕ) ^ 31 else 0) + E * 2 ^ 23 + M) % 2 ^ 23 = M := by
    cases s <;> simp <;> omega
  simp only [fromBits, hsf, hEf, hMf]
  rw [if_neg (by omega : ¬ E = 255)]
  congr 1
  rw [f32val_def]
  congr 1
  cases s <;> simp

lemma fromBits_splitBits (v : ℚ) (h : IsFiniteF32 v) :
    fromBits (splitBits v) = some v ∧ splitBits v < 2 ^ 32 := by
  obtain ⟨s, E, M, hE, hM, rfl⟩ := h
  by_cases hz : f32val s E M = 0
  · have h0 : splitBits (f32val s E M) = 0 := by
      simp only [splitBits]
      rw [if_pos hz, if_neg (by rw [hz]; exact lt_irrefl 0)]
    rw [h0, hz]
    refine ⟨?_, by norm_num⟩
    norm_num [fromBits]
  · have hnz : ¬(E = 0 ∧ M = 0) := fun hc => hz ((f32val_eq_zero s E M).mpr hc)
    rw [splitBits_f32val_nz s E M hE hM hnz]
    refine ⟨fromBits_pattern s E M hE hM, ?_⟩
    cases s <;> simp <;> omega

lemma f32round_eq_self (v : ℚ) (h : IsFiniteF32 v) : f32round v = v := by
  obtain ⟨s, E, M, hE, hM, rfl⟩ := h
  by_cases hz : f32val s E M = 0
  · simp only [f32round]
    rw [if_pos hz, hz]
  · have hnz : ¬(E = 0 ∧ M = 0) := fun hc => hz ((f32val_eq_zero s E M).mpr hc)
    simp only [f32round]
    rw [if_neg hz, abs_f32val, signFactor s E M hnz]
    by_cases hE0 : E = 0
    · subst hE0
      have hM0 : M ≠ 0 := fun h => hnz ⟨rfl, h⟩
      rw [max_eq_right (le_of_lt (log_f32mag_sub M hM0 hM)), f32mag_div_sub, rne_natCast]
      have he : (-126:ℤ) - 23 = -149 := by norm_num
      rw [he, f32val_def]
      unfold f32mag
      rw [if_pos rfl]
      push_cast
      ring
    · have hlog : max (Int.log 2 (f32mag E M)) (-126) = (E:ℤ) - 127 := by
        rw [log_f32mag E M hE0 hM]
        refine max_eq_left ?_
        have : 1 ≤ E := Nat.one_le_iff_ne_zero.mpr hE0
        omega
      rw [hlog, f32mag_div_normal E M hE0, rne_natCast]
      have he : (E:ℤ) - 127 - 23 = (E:ℤ) - 150 := by ring
      rw [he, f32val_def]
      unfold f32mag
      rw [if_neg hE0]
      push_cast
      ring

lemma foldl_cons_eq_reverse_append {α : Type} (l : List α) (h : List α) :
    l.foldl (fun acc b => b :: acc) h = l.reverse ++ h := by
  induction l generalizing h with
  | nil => simp
  | cons x l ih => simp [ih]

lemma pushBatch_eq (hist : List (List ℕ)) (batch : List GPSPoint) :
    pushBatch hist batch = ((batch.map compress_gps_point).reverse ++ hist).take 200 := by
  unfold pushBatch
  rw [foldl_cons_eq_reverse_append]

lemma take_append_take {α : Type} (n : ℕ) (x y : List α) :
    (x ++ y.take n).take n = (x ++ y).take n := by
  rw [List.take_append_eq_append_take, List.take_append_eq_append_take, List.take_take]
  have hm : min (n - x.length) n = n - x.length := by omega
  rw [hm]

lemma foldl_push_eq (batches : List (List GPSPoint)) :
    ∀ h : List (List ℕ), h.length ≤ 200 →
      batches.foldl (fun h b => if b = [] then h else pushBatch h b) h
        = ((batches.flatten.map compress_gps_point).reverse ++ h).take 200 := by
  induction batches with
  | nil =>
    intro h hh
    simp [List.take_of_length_le hh]
  | cons b bs ih =>
    intro h hh
    rw [List.foldl_cons]
    by_cases hb : b = []
    · rw [if_pos hb, ih h hh, hb]
      simp
    · rw [if_neg hb, pushBatch_eq,
        ih (((b.map compress_gps_point).reverse ++ h).take 200) (by simp),
        take_append_take]
      simp [List.append_assoc]

lemma getA_setA_self {α : Type} (l : List (String × α)) (k : String) (v : α) :
    getA (setA l k v) k = some v := by
  induction l with
  | nil => simp [setA, getA]
  | cons kv l ih =>
    by_cases hk : kv.1 = k
    · simp [setA, hk, getA]
    · simp [setA, hk, getA, ih]

lemma getA_setA_ne {α : Type} (l : List (String × α)) (k w : String) (v : α)
    (h : w ≠ k) : getA (setA l k v) w = getA l w := by
  induction l with
  | nil =>
    simp only [setA, getA]
    rw [if_neg (show ¬ k = w from fun hc => h hc.symm)]
  | cons kv l ih =>
    by_cases hk : kv.1 = k
    · have h1 : setA (kv :: l) k v = (k, v) :: l := by simp [setA, hk]
      rw [h1]
      simp only [getA]
      rw [if_neg (show ¬ k = w from fun hc => h hc.symm),
        if_neg (show ¬ kv.1 = w from by rw [hk]; exact fun hc => h hc.symm)]
    · have h1 : setA (kv :: l) k v = kv :: setA l k v := by simp [setA, hk]
      rw [h1]
      simp only [getA]
      by_cases hw : kv.1 = w
      · rw [if_pos hw, if_pos hw]
      · rw [if_neg hw, if_neg hw, ih]

lemma setA_ne_nil {α : Type} (l : List (String × α)) (k : String) (v : α) :
    setA l k v ≠ [] := by
  cases l with
  | nil => simp [setA]
  | cons kv l =>
    unfold setA
    split <;> simp

lemma mem_setA {α : Type} (l : List (String × α)) (k : String) (v : α) :
    ∀ b ∈ setA l k v, b ∈ l ∨ b = (k, v) := by
  induction l with
  | nil => simp [setA]
  | cons kv l ih =>
    intro b hb
    unfold setA at hb
    by_cases hk : kv.1 = k
    · rw [if_pos hk] at hb
      rcases List.mem_cons.mp hb with h | h
      · right; exact h
      · left; exact List.mem_cons_of_mem kv h
    · rw [if_neg hk] at hb
      rcases List.mem_cons.mp hb with h | h
      · left; rw [h]; exact List.mem_cons_self kv l
      · rcases ih b h with h2 | h2
        · left; exact List.mem_cons_of_mem kv h2
        · right; exact h2

lemma setA_pairwise {α : Type} (l : List (String × α)) (k : String) (v : α)
    (hu : l.Pairwise (fun a b => a.1 ≠ b.1)) :
    (setA l k v).Pairwise (fun a b => a.1 ≠ b.1) := by
  induction l with
  | nil => simp [setA]
  | cons kv l ih =>
    rcases List.pairwise_cons.mp hu with ⟨hhead, htail⟩
    unfold setA
    by_cases hk : kv.1 = k
    · rw [if_pos hk]
      refine List.pairwise_cons.mpr ⟨?_, htail⟩
      intro b hb
      rw [← hk]
      exact hhead b hb
    · rw [if_neg hk]
      refine List.pairwise_cons.mpr ⟨?_, ih htail⟩
      intro b hb
      rcases mem_setA l k v b hb with h | h
      · exact hhead b h
      · rw [h]
        exact hk

lemma flushEntry_tracks_ne (r : RedisState) (vid : String) (pts : List GPSPoint)
    (w : String) (h : w ≠ vid) :
    getA (flushEntry r vid pts).tracks w = getA r.tracks w := by
  unfold flushEntry
  cases pts.getLast? with
  | none => rfl
  | some latest => exact getA_setA_ne r.tracks vid w _ h

lemma foldl_flush_preserve (entries : List (String × List GPSPoint)) (r : RedisState)
    (w : String) (h : ∀ kv ∈ entries, kv.1 ≠ w) :
    getA ((entries.foldl (fun r kv => flushEntry r kv.1 kv.2) r)).tracks w
      = getA r.tracks w := by
  induction entries generalizing r with
  | nil => rfl
  | cons kv rest ih =>
    rw [List.foldl_cons, ih _ (fun x hx => h x (List.mem_cons_of_mem kv hx)),
      flushEntry_tracks_ne _ _ _ _ (fun hc => h kv (List.mem_cons_self kv rest) hc.symm)]

lemma foldl_flush_tracks (entries : List (String × List GPSPoint)) (r : RedisState)
    (w : String) (pts : List GPSPoint)
    (hu : entries.Pairwise (fun a b => a.1 ≠ b.1))
    (hget : getA entries w = some pts) (hne : pts ≠ []) :
    getA ((entries.foldl (fun r kv => flushEntry r kv.1 kv.2) r)).tracks w
      = some (pushBatch ((getA r.tracks w).getD []) pts) := by
  induction entries generalizing r with
  | nil => simp [getA] at hget
  | cons kv rest ih =>
    rcases List.pairwise_cons.mp hu with ⟨hhead, htail⟩
    rw [List.foldl_cons]
    by_cases hk : kv.1 = w
    · have hpts : kv.2 = pts := by
        unfold getA at hget
        rw [if_pos hk] at hget
        exact Option.some.inj hget
      rw [foldl_flush_preserve rest _ w (fun x hx hc => hhead x hx (hk.trans hc.symm))]
      unfold flushEntry
      rw [hpts]
      cases hlast : pts.getLast? with
      | none => exact absurd (List.getLast?_eq_none_iff.mp hlast) hne
      | some latest =>
        simp only [← hk]
        rw [getA_setA_self]
    · have hget2 : getA rest w = some pts := by
        unfold getA at hget
        rwa [if_neg hk] at hget
      rw [ih _ htail hget2, flushEntry_tracks_ne _ _ _ _ (fun hc => hk hc.symm)]

lemma routeStep_total_distance (acc : RouteAcc) (pr : GPSLocation × GPSLocation) :
    (routeStep acc pr).total_distance = acc.total_distance +
      calculate_distance pr.1.latitude pr.1.longitude pr.2.latitude pr.2.longitude := by
  unfold routeStep
  cases h : truthySpeed pr.2 with
  | none => simp
  | some s =>
    by_cases h5 : s < 5
    · by_cases h2 : 2 < (pr.2.gps_time - pr.1.gps_time) / 60 <;> simp [h5, h2]
    · simp [h5]

lemma foldl_routeStep_total_distance (l : List (GPSLocation × GPSLocation)) (acc : RouteAcc) :
    (l.foldl routeStep acc).total_distance = acc.total_distance +
      (l.map (fun pr =>
        calculate_distance pr.1.latitude pr.1.longitude pr.2.latitude pr.2.longitude)).sum := by
  induction l generalizing acc with
  | nil => simp
  | cons pr l ih =>
    rw [List.foldl_cons, ih, routeStep_total_distance, List.map_cons, List.sum_cons]
    ring

lemma calculate_distance_self (lat lon : ℚ) : calculate_distance lat lon lat lon = 0 := by
  unfold calculate_distance
  simp

lemma rnd2_zero {α : Type} [LinearOrderedField α] [FloorRing α] : rnd2 (0 : α) = 0 := by
  norm_num [rnd2, rne]


lemma analyze_route_total_duration (p0 : GPSLocation) (rest : List GPSLocation)
    (h : rest ≠ []) :
    (analyze_route (p0 :: rest)).total_duration =
      pyTrunc ((((p0 :: rest).getLastD p0).gps_time - p0.gps_time) / 60) := by
  have h' : ¬ (rest.length + 1 < 2) := by
    cases rest with
    | nil => exact absurd rfl h
    | cons x xs => simp
  unfold analyze_route
  simp [h']

lemma analyze_route_total_distance (p0 : GPSLocation) (rest : List GPSLocation)
    (h : rest ≠ []) :
    (analyze_route (p0 :: rest)).total_distance =
      rnd2 (((consecPairs (p0 :: rest)).map (fun pr =>
        calculate_distance pr.1.latitude pr.1.longitude pr.2.latitude pr.2.longitude)).sum) := by
  have h' : ¬ (rest.length + 1 < 2) := by
    cases rest with
    | nil => exact absurd rfl h
    | cons x xs => simp
  have hd := foldl_routeStep_total_distance (consecPairs (p0 :: rest)) ⟨0, 0, [], 0, 0⟩
  unfold analyze_route
  simp [h', hd]

/-- C1: the spec claims that each maximal run of qualifying gaps (later
point's speed < 5 km/h and elapsed time > 2 minutes) counts as exactly one
stop event and that the synthetic sequence exC1A (10 minutes to a speed-0
point, then 1 minute to a speed-60 point) yields stop_count = 1 and
stop_duration ≈ 10.  The code disagrees twice: the guard
`if curr_point.speed:` treats speed 0 as falsy and skips the gap entirely,
so exC1A yields stop_count = 0 and stop_duration = 0; and each qualifying
gap is counted separately, so the two consecutive qualifying gaps of exC1B
yield stop_count = 2 where the spec's maximal-run reading demands 1. -/
theorem C1_counterexample :
    (analyze_route exC1A).stop_count = 0 ∧ (analyze_route exC1A).stop_duration = 0 ∧
    (analyze_route exC1B).stop_count = 2 := by
  refine ⟨?_, ?_, ?_⟩
  · rw [analyze_route_stop_count]
    norm_num [exC1A, consecPairs, stopPair, truthySpeed]
  · rw [analyze_route_stop_duration]
    norm_num [exC1A, consecPairs, stopPair, truthySpeed]
  · rw [analyze_route_stop_count]
    norm_num [exC1B, consecPairs, stopPair, truthySpeed]

/-- C1 (amended): stop_count is the number of consecutive pairs whose later
point has a present, nonzero speed below 5 km/h with more than 2 minutes
elapsed — each such gap counted separately, with no merging of consecutive
gaps — and stop_duration is the sum of the truncated elapsed minutes over
exactly those gaps. -/
theorem C1_stop_detection (gps_points : List GPSLocation) :
    (analyze_route gps_points).stop_count = (consecPairs gps_points).countP stopPair ∧
    (analyze_route gps_points).stop_duration =
      (((consecPairs gps_points).filter stopPair).map stopMinutes).sum :=
  ⟨analyze_route_stop_count gps_points, analyze_route_stop_duration gps_points⟩

/-- C2: the spec claims average_speed_kmh = total_distance_km /
(total_duration_min / 60) with 0 for zero duration.  On exC2 — two points at
identical coordinates one hour apart, the later reporting 60 km/h — the code
returns total_distance = 0, total_duration = 60 and average_speed = 60,
which violates the claimed equation (it would require 0). -/
theorem C2_counterexample :
    (analyze_route exC2).total_duration = 60 ∧
    (analyze_route exC2).total_distance = 0 ∧
    (analyze_route exC2).average_speed = 60 ∧
    ¬ (((analyze_route exC2).average_speed : ℝ) =
        (analyze_route exC2).total_distance /
          (((analyze_route exC2).total_duration : ℝ) / 60)) := by
  have hdur : (analyze_route exC2).total_duration = 60 := by
    have h := analyze_route_total_duration (⟨none, none, 10, 20, none, 0, "1"⟩ : GPSLocation)
      [⟨none, none, 10, 20, some 60, 3600, "1"⟩] (by decide)
    refine h.trans ?_
    norm_num [List.getLastD, pyTrunc]
  have hdist : (analyze_route exC2).total_distance = 0 := by
    have h := analyze_route_total_distance (⟨none, none, 10, 20, none, 0, "1"⟩ : GPSLocation)
      [⟨none, none, 10, 20, some 60, 3600, "1"⟩] (by decide)
    rw [show ((consecPairs ((⟨none, none, 10, 20, none, 0, "1"⟩ : GPSLocation) ::
        [⟨none, none, 10, 20, some 60, 3600, "1"⟩])).map (fun pr =>
          calculate_distance pr.1.latitude pr.1.longitude pr.2.latitude pr.2.longitude))
        = [calculate_distance 10 20 10 20] from rfl] at h
    rw [List.sum_cons, List.sum_nil, calculate_distance_self, add_zero, rnd2_zero] at h
    exact h
  have havg : (analyze_route exC2).average_speed = 60 := by
    have h := analyze_route_average_speed exC2 (by decide)
    have hcs : collectedSpeeds exC2 = [60] := by
      simp [collectedSpeeds, consecPairs, exC2, truthySpeed, List.filterMap_cons]
    refine h.trans ?_
    rw [hcs]
    norm_num [rnd2, rne]
  refine ⟨hdur, hdist, havg, ?_⟩
  rw [hdur, hdist, havg]
  norm_num

/-- C2 (amended): average_speed is the 2-decimal rounding of the arithmetic
mean of the present, nonzero reported speeds of the points after the first,
and 0 when no such speed exists; it is not derived from distance and
duration, and a zero duration does not force it to 0. -/
theorem C2_average_speed (gps_points : List GPSLocation) (h : 2 ≤ gps_points.length) :
    (analyze_route gps_points).average_speed =
      rnd2 (if collectedSpeeds gps_points = [] then (0 : ℚ)
            else (collectedSpeeds gps_points).sum / ((collectedSpeeds gps_points).length : ℚ)) :=
  analyze_route_average_speed gps_points (by omega)

/-- Witness for C2_average_speed at the concrete list exC2. -/
theorem C2_average_speed_witness :
    (analyze_route exC2).average_speed =
      rnd2 (if collectedSpeeds exC2 = [] then (0 : ℚ)
            else (collectedSpeeds exC2).sum / ((collectedSpeeds exC2).length : ℚ)) :=
  C2_average_speed exC2 (by decide)

/-- C3: two bulk-upsert writes that collide on the (vehicle_id, timestamp)
key leave exactly one row for that key in the durable table, carrying the
non-key fields of the later write, and key uniqueness is preserved. -/
theorem C3_upsert_idempotent (table : List GpsRow) (r1 r2 : GpsRow)
    (hu : UniqueKeys table) (_hk : sameKey r1 r2) :
    ((bulk_upsert (bulk_upsert table [r1]) [r2]).filter
        (fun row => decide (sameKey r2 row)) = [r2]) ∧
    UniqueKeys (bulk_upsert (bulk_upsert table [r1]) [r2]) := by
  have h1 : bulk_upsert table [r1] = upsertRow table r1 := rfl
  have h2 : bulk_upsert (upsertRow table r1) [r2] = upsertRow (upsertRow table r1) r2 := rfl
  have hu1 : UniqueKeys (upsertRow table r1) := upsert_unique table r1 hu
  rw [h1, h2]
  exact ⟨upsert_filter (upsertRow table r1) r2 hu1, upsert_unique (upsertRow table r1) r2 hu1⟩

/-- Witness for C3_upsert_idempotent: exRow1 then exRow2 on the empty table. -/
theorem C3_upsert_idempotent_witness :
    ((bulk_upsert (bulk_upsert [] [exRow1]) [exRow2]).filter
        (fun row => decide (sameKey exRow2 row)) = [exRow2]) ∧
    UniqueKeys (bulk_upsert (bulk_upsert [] [exRow1]) [exRow2]) :=
  C3_upsert_idempotent [] exRow1 exRow2 List.Pairwise.nil (by decide)

/-- C4: the spec claims out-of-range coordinates and negative speeds are
rejected with a ValidationError at the ingestion boundary and never enter
the buffer.  add_gps_data performs no validation: the point exBadPoint with
latitude 100, longitude 200 and speed -5 is appended to the buffer. -/
theorem C4_counterexample :
    (add_gps_data exBP exBadPoint).buffer = [rowOf exBadPoint] ∧
    ¬ (-90 ≤ exBadPoint.latitude ∧ exBadPoint.latitude ≤ 90) ∧
    ¬ (-180 ≤ exBadPoint.longitude ∧ exBadPoint.longitude ≤ 180) ∧
    exBadPoint.speed < 0 := by
  refine ⟨?_, by decide, by decide, by decide⟩
  decide

/-- C4 (amended): the accept operation add_gps_data appends every point to
the buffer unconditionally (no range validation exists there); latitude,
longitude and speed range checks exist only on the G7LocationData pydantic
model of the G7 integration, whose validators accept exactly the points
with latitude in [-90, 90], longitude in [-180, 180] and speed ≥ 0. -/
theorem C4_no_validation :
    (∀ (st : BPState) (g : GPSBatchData), st.buffer.length + 1 < st.batch_size →
      (add_gps_data st g).buffer = st.buffer ++ [rowOf g]) ∧
    (∀ d : G7LocationData, g7_validate d = Except.ok d ↔
      (-90 ≤ d.latitude ∧ d.latitude ≤ 90 ∧ -180 ≤ d.longitude ∧ d.longitude ≤ 180 ∧
        0 ≤ d.speed)) := by
  constructor
  · intro st g h
    unfold add_gps_data
    rw [if_neg]
    simp only [List.length_append, List.length_cons, List.length_nil]
    omega
  · intro d
    unfold g7_validate
    by_cases h1 : -90 ≤ d.latitude ∧ d.latitude ≤ 90
    · by_cases h2 : -180 ≤ d.longitude ∧ d.longitude ≤ 180
      · by_cases h3 : d.speed < 0
        · rw [if_neg (not_not.mpr h1), if_neg (not_not.mpr h2), if_pos h3]
          exact ⟨fun hc => absurd hc (by simp), fun hr => absurd h3 (not_lt.mpr hr.2.2.2.2)⟩
        · rw [if_neg (not_not.mpr h1), if_neg (not_not.mpr h2), if_neg h3]
          exact iff_of_true rfl ⟨h1.1, h1.2, h2.1, h2.2, not_lt.mp h3⟩
      · rw [if_neg (not_not.mpr h1), if_pos h2]
        exact ⟨fun hc => absurd hc (by simp), fun hr => absurd ⟨hr.2.2.1, hr.2.2.2.1⟩ h2⟩
    · rw [if_pos h1]
      exact ⟨fun hc => absurd hc (by simp), fun hr => absurd ⟨hr.1, hr.2.1⟩ h1⟩

/-- Witness for C4_no_validation: a valid point is appended to the fresh
buffer, and the in-range G7 payload exG7 passes validation. -/
theorem C4_no_validation_witness :
    (add_gps_data exBP exGoodPoint).buffer = [rowOf exGoodPoint] ∧
    g7_validate exG7 = Except.ok exG7 := by
  constructor
  · have h := C4_no_validation.1 exBP exGoodPoint (by decide)
    simpa using h
  · exact (C4_no_validation.2 exG7).mpr (by decide)


lemma chunk4_toLE4 (a : ℕ) (ha : a < 2 ^ 32) : chunk4 (toLE4 a) = [a] := by
  have h := chunk4_toLE4_append a ha []
  rw [List.append_nil] at h
  rw [h]
  rfl

lemma decompress_index_error (data : List ℕ) (h4 : data.length % 4 = 0)
    (hlen : data.length < 20) :
    decompress_gps_point data = Except.error DecodeError.indexError := by
  have h5 : (chunk4 data).length < 5 := by
    have := chunk4_length data
    omega
  unfold decompress_gps_point
  rw [if_neg (by simp [h4])]
  rcases hx : chunk4 data with _ | ⟨a0, _ | ⟨a1, _ | ⟨a2, _ | ⟨a3, _ | ⟨a4, rest⟩⟩⟩⟩⟩
  · rfl
  · rfl
  · rfl
  · rfl
  · rfl
  · rw [hx] at h5
    simp only [List.length_cons] at h5
    omega

lemma decompress_ok (data : List ℕ) (h4 : data.length % 4 = 0) (hlen : 20 ≤ data.length) :
    ∃ a0 a1 a2 a3 a4 rest, chunk4 data = a0 :: a1 :: a2 :: a3 :: a4 :: rest ∧
      decompress_gps_point data =
        Except.ok ⟨fromBits a0, fromBits a1, fromBits a2, fromBits a3, fromBits a4⟩ := by
  have h5 : 5 ≤ (chunk4 data).length := by
    have := chunk4_length data
    omega
  rcases hx : chunk4 data with _ | ⟨a0, _ | ⟨a1, _ | ⟨a2, _ | ⟨a3, _ | ⟨a4, rest⟩⟩⟩⟩⟩
  · rw [hx] at h5
    simp at h5
  · rw [hx] at h5
    simp at h5
  · rw [hx] at h5
    simp at h5
  · rw [hx] at h5
    simp at h5
  · rw [hx] at h5
    simp at h5
  · refine ⟨a0, a1, a2, a3, a4, rest, rfl, ?_⟩
    unfold decompress_gps_point
    rw [if_neg (by simp [h4]), hx]

/-- C5: the spec claims every block whose length is not exactly 20 bytes is
rejected with a MalformedRecord error.  The decoder performs no such check:
the 24-byte block exBlock24 decodes successfully (from its first five
float32 words). -/
theorem C5_counterexample :
    decompress_gps_point exBlock24 =
      Except.ok ⟨some 0, some 0, some 0, some 0, some 0⟩ := by
  have hf : fromBits 0 = some 0 := by norm_num [fromBits]
  have h : decompress_gps_point exBlock24 =
      Except.ok ⟨fromBits 0, fromBits 0, fromBits 0, fromBits 0, fromBits 0⟩ := rfl
  rw [h, hf]

/-- C5 (amended): decoding succeeds exactly when the block's byte length is a
multiple of 4 (np.frombuffer's item-size requirement, ValueError otherwise)
of at least 20 bytes (five complete words, IndexError otherwise); blocks
longer than 20 bytes are accepted, their first five words decoded, and no
MalformedRecord-style exact-20 check exists. -/
theorem C5_decode_success (data : List ℕ) :
    (∃ p, decompress_gps_point data = Except.ok p) ↔
      (data.length % 4 = 0 ∧ 20 ≤ data.length) := by
  constructor
  · rintro ⟨p, hp⟩
    by_cases h4 : data.length % 4 = 0
    · refine ⟨h4, ?_⟩
      by_contra h20
      push_neg at h20
      rw [decompress_index_error data h4 h20] at hp
      exact absurd hp (by simp)
    · unfold decompress_gps_point at hp
      rw [if_pos h4] at hp
      exact absurd hp (by simp)
  · rintro ⟨h4, h20⟩
    obtain ⟨a0, a1, a2, a3, a4, rest, hx, hok⟩ := decompress_ok data h4 h20
    exact ⟨_, hok⟩

/-- C6: the spec claims the historical track queries return points sorted
ascending by time.  GPSQueryOptimizer.get_vehicle_track orders by timestamp
DESC: on a store with timestamps 1 and 2 it returns [2, 1], which is not
ascending. -/
theorem C6_counterexample :
    (get_vehicle_track exTrackStore "v" 0 10 100).map (fun r => r.timestamp) = [2, 1] ∧
    ¬ List.Sorted (fun a b : ℚ => a ≤ b)
        ((get_vehicle_track exTrackStore "v" 0 10 100).map (fun r => r.timestamp)) := by
  have h : (get_vehicle_track exTrackStore "v" 0 10 100).map (fun r => r.timestamp)
      = [2, 1] := by decide
  refine ⟨h, ?_⟩
  rw [h]
  norm_num [List.sorted_cons]

/-- C6 (amended): GPSService.get_tracking_history returns its rows ascending
by gps_time, while GPSQueryOptimizer.get_vehicle_track returns its rows
descending by timestamp (most recent first, up to the limit). -/
theorem C6_track_order (storeG : List GPSLocation) (filters : TrackingFilter) (limit1 : ℕ)
    (storeD : List GpsRow) (vid : String) (t1 t2 : ℚ) (limit2 : ℕ) :
    List.Sorted (fun a b : ℚ => a ≤ b)
      ((get_tracking_history storeG filters limit1).map (fun r => r.gps_time)) ∧
    List.Sorted (fun a b : ℚ => b ≤ a)
      ((get_vehicle_track storeD vid t1 t2 limit2).map (fun r => r.timestamp)) := by
  constructor
  · haveI : IsTotal GPSLocation (fun a b => a.gps_time ≤ b.gps_time) :=
      ⟨fun a b => le_total a.gps_time b.gps_time⟩
    haveI : IsTrans GPSLocation (fun a b => a.gps_time ≤ b.gps_time) :=
      ⟨fun a b c hab hbc => le_trans hab hbc⟩
    have hs := List.sorted_insertionSort (fun a b : GPSLocation => a.gps_time ≤ b.gps_time)
      (storeG.filter (fun r => decide (r.is_valid = "1") && glMatches filters r))
    have ht := List.Pairwise.sublist (List.take_sublist limit1 _) hs
    exact List.pairwise_map.mpr ht
  · haveI : IsTotal GpsRow (fun a b => b.timestamp ≤ a.timestamp) :=
      ⟨fun a b => le_total b.timestamp a.timestamp⟩
    haveI : IsTrans GpsRow (fun a b => b.timestamp ≤ a.timestamp) :=
      ⟨fun a b c hab hbc => le_trans hbc hab⟩
    have hs := List.sorted_insertionSort (fun a b : GpsRow => b.timestamp ≤ a.timestamp)
      (storeD.filter (fun r => decide (r.vehicle_id = vid) &&
        decide (t1 ≤ r.timestamp) && decide (r.timestamp ≤ t2)))
    have ht := List.Pairwise.sublist (List.take_sublist limit2 _) hs
    exact List.pairwise_map.mpr ht

/-- C7: the spec claims that for every entity with at least one point in
the queried window the aggregate-stats operation reports displacement_km
computed from the first and last point coordinates.  It reports nothing:
the statement's ST_Distance(...)::geography cast of a double precision
value is rejected by PostgreSQL, so even on exStatsStore, whose window
holds two points of vehicle v, the call fails with the cannot-cast error
instead of reporting any displacement. -/
theorem C7_counterexample :
    (exStatsStore.filter (fun r =>
      decide (r.vehicle_id = "v") && decide ((0:ℚ) ≤ r.timestamp))).length = 2 ∧
    get_vehicle_statistics exStatsStore "v" 0 =
      Except.error (PgError.cannotCast "double precision" "geography") :=
  ⟨by decide, rfl⟩

/-- C7 (amended): the aggregate-stats operation never reports
displacement_km: for every store, vehicle id and time window,
get_vehicle_statistics fails with PostgreSQL's cannot-cast error (double
precision to geography), raised while the statement is analyzed, before
any row is read. -/
theorem C7_sql_error (store : List GpsRow) (vid : String) (since_time : ℚ) :
    get_vehicle_statistics store vid since_time =
      Except.error (PgError.cannotCast "double precision" "geography") :=
  rfl

/-- C8: after any sequence of flushed batches, the cached trajectory history
is exactly the newest-first sequence of all pushed (compressed) points
truncated to the 200 most recent — so its length never exceeds 200 and
overflow evicts the oldest entries. -/
theorem C8_bounded_history (batches : List (List GPSPoint)) :
    (histAfter batches).length ≤ 200 ∧
    histAfter batches = ((batches.flatten.map compress_gps_point).reverse).take 200 := by
  have h2 : histAfter batches
      = ((batches.flatten.map compress_gps_point).reverse).take 200 := by
    unfold histAfter
    rw [foldl_push_eq batches [] (by simp)]
    simp
  refine ⟨?_, h2⟩
  rw [h2, List.length_take]
  exact min_le_left _ _

/-- C9: the spec claims a size-triggered flush writes just the triggering
entity's buffer and leaves every other entity's buffered points in place.
In exCacheState vehicle B has one buffered point; caching the 50th point of
vehicle A triggers _flush_write_buffer, which clears the whole buffer — B's
entry included. -/
theorem C9_counterexample :
    getA exCacheState.write_buffer "B" = some [exPointB] ∧
    (cache_gps_point exCacheState "A" exPointA).write_buffer = [] ∧
    getA (cache_gps_point exCacheState "A" exPointA).write_buffer "B" = none := by
  refine ⟨rfl, rfl, rfl⟩

/-- C9 (amended): when a point brings one vehicle's buffer to batch_size, an
immediate flush of the ENTIRE write buffer runs inside cache_gps_point: the
whole buffer is cleared and every other vehicle's non-empty buffered batch
is written to its Redis track (pushed newest-first and trimmed to 200). -/
theorem C9_size_trigger_flush (st : CacheState) (vid : String) (p : GPSPoint)
    (hu : st.write_buffer.Pairwise (fun a b => a.1 ≠ b.1))
    (htrig : cacheBatchSize ≤ (((getA st.write_buffer vid).getD []) ++ [p]).length) :
    (cache_gps_point st vid p).write_buffer = [] ∧
    (∀ w pts, w ≠ vid → getA st.write_buffer w = some pts → pts ≠ [] →
      getA (cache_gps_point st vid p).redis.tracks w =
        some (pushBatch ((getA st.redis.tracks w).getD []) pts)) := by
  constructor
  · simp only [cache_gps_point]
    rw [if_pos htrig]
    simp only [flush_write_buffer]
    rw [if_neg (setA_ne_nil _ _ _)]
  · intro w pts hw hget hne
    have hget2 : getA (setA st.write_buffer vid
        (((getA st.write_buffer vid).getD []) ++ [p])) w = some pts := by
      rw [getA_setA_ne _ _ _ _ hw]
      exact hget
    have hu2 := setA_pairwise st.write_buffer vid
      (((getA st.write_buffer vid).getD []) ++ [p]) hu
    simp only [cache_gps_point]
    rw [if_pos htrig]
    simp only [flush_write_buffer]
    rw [if_neg (setA_ne_nil _ _ _)]
    exact foldl_flush_tracks _ st.redis w pts hu2 hget2 hne

/-- Witness for C9_size_trigger_flush at exCacheState. -/
theorem C9_size_trigger_flush_witness :
    (cache_gps_point exCacheState "A" exPointA).write_buffer = [] ∧
    getA (cache_gps_point exCacheState "A" exPointA).redis.tracks "B" =
      some (pushBatch ((getA exCacheState.redis.tracks "B").getD []) [exPointB]) := by
  have h := C9_size_trigger_flush exCacheState "A" exPointA (by decide) (by decide)
  exact ⟨h.1, h.2 "B" [exPointB] (by decide) rfl (by decide)⟩

/-- C10: decoding an encoded 20-byte block recovers each field as the
binary32 round-to-nearest-even of the original field (given the rounded
fields are finite), and recovers the point exactly when all five fields are
exactly representable in binary32. -/
theorem C10_roundtrip (p : GPSPoint)
    (h1 : IsFiniteF32 (f32round p.lat)) (h2 : IsFiniteF32 (f32round p.lng))
    (h3 : IsFiniteF32 (f32round p.timestamp)) (h4 : IsFiniteF32 (f32round p.speed))
    (h5 : IsFiniteF32 (f32round p.direction)) :
    decompress_gps_point (compress_gps_point p) =
      Except.ok ⟨some (f32round p.lat), some (f32round p.lng), some (f32round p.timestamp),
        some (f32round p.speed), some (f32round p.direction)⟩ ∧
    ((IsFiniteF32 p.lat ∧ IsFiniteF32 p.lng ∧ IsFiniteF32 p.timestamp ∧
      IsFiniteF32 p.speed ∧ IsFiniteF32 p.direction) →
      decompress_gps_point (compress_gps_point p) =
        Except.ok ⟨some p.lat, some p.lng, some p.timestamp, some p.speed, some p.direction⟩) := by
  obtain ⟨hb1, hlt1⟩ := fromBits_splitBits _ h1
  obtain ⟨hb2, hlt2⟩ := fromBits_splitBits _ h2
  obtain ⟨hb3, hlt3⟩ := fromBits_splitBits _ h3
  obtain ⟨hb4, hlt4⟩ := fromBits_splitBits _ h4
  obtain ⟨hb5, hlt5⟩ := fromBits_splitBits _ h5
  have hchunk : chunk4 (compress_gps_point p) =
      [splitBits (f32round p.lat), splitBits (f32round p.lng),
       splitBits (f32round p.timestamp), splitBits (f32round p.speed),
       splitBits (f32round p.direction)] := by
    unfold compress_gps_point
    simp only [List.append_assoc]
    rw [chunk4_toLE4_append _ hlt1, chunk4_toLE4_append _ hlt2, chunk4_toLE4_append _ hlt3,
      chunk4_toLE4_append _ hlt4, chunk4_toLE4 _ hlt5]
  have hlen : (compress_gps_point p).length = 20 := by
    unfold compress_gps_point toLE4
    simp
  have hmain : decompress_gps_point (compress_gps_point p) =
      Except.ok ⟨some (f32round p.lat), some (f32round p.lng), some (f32round p.timestamp),
        some (f32round p.speed), some (f32round p.direction)⟩ := by
    unfold decompress_gps_point
    rw [if_neg (by rw [hlen]; norm_num), hchunk]
    simp only [hb1, hb2, hb3, hb4, hb5]
  refine ⟨hmain, ?_⟩
  rintro ⟨g1, g2, g3, g4, g5⟩
  rw [hmain, f32round_eq_self _ g1, f32round_eq_self _ g2, f32round_eq_self _ g3,
    f32round_eq_self _ g4, f32round_eq_self _ g5]

/-- Witness for C10_roundtrip at exC10Point, whose fields 1.5, 0, 0, 0, 0
are exactly representable. -/
theorem C10_roundtrip_witness :
    decompress_gps_point (compress_gps_point exC10Point) =
      Except.ok ⟨some (3/2), some 0, some 0, some 0, some 0⟩ := by
  have hrep1 : IsFiniteF32 ((3:ℚ)/2) :=
    ⟨false, 127, 2 ^ 22, by norm_num, by norm_num, by norm_num [f32val]⟩
  have hrep0 : IsFiniteF32 (0:ℚ) :=
    ⟨false, 0, 0, by norm_num, by norm_num, by norm_num [f32val]⟩
  have hfix1 : f32round ((3:ℚ)/2) = 3/2 := f32round_eq_self _ hrep1
  have hfix0 : f32round (0:ℚ) = 0 := f32round_eq_self _ hrep0
  have h := C10_roundtrip exC10Point
    (by show IsFiniteF32 (f32round ((3:ℚ)/2)); rw [hfix1]; exact hrep1)
    (by show IsFiniteF32 (f32round (0:ℚ)); rw [hfix0]; exact hrep0)
    (by show IsFiniteF32 (f32round (0:ℚ)); rw [hfix0]; exact hrep0)
    (by show IsFiniteF32 (f32round (0:ℚ)); rw [hfix0]; exact hrep0)
    (by show IsFiniteF32 (f32round (0:ℚ)); rw [hfix0]; exact hrep0)
  exact h.2 ⟨hrep1, hrep0, hrep0, hrep0, hrep0⟩

end GpsVerify
